import Mathlib

/-!
Verification of the core domain logic of the simple-budget-tracker
repository: the expense ledger (`src/budget_tracker.py`, class
`BudgetTracker`) and the budget-status computation
(`src/budget_tracker_v2.py`, class `BudgetTrackerV2`, in-memory mode).

Modelling conventions:
- Python `Decimal` values are modelled as exact rationals (`Rat`);
  `Decimal` addition on monetary values is exact, and division is exact
  up to the default 28-digit context, which the model treats as exact.
- Python `datetime` values are modelled as `Int` (the code only uses
  their total order).
- A `Decimal(str(x))` conversion that may fail is modelled by
  `AmountInput`: either a value that parses to a given rational, or an
  unparseable value (`Decimal` raises `InvalidOperation`, which the code
  turns into `ValueError`).
- A raised `ValueError` is modelled as `Except.error`; each mutating
  method returns the pair (control outcome, ledger state after the
  call), because a Python method can mutate `self._expenses` before
  raising.
- Python dicts keyed by strings are modelled as insertion-ordered
  association lists, matching dict iteration order.
-/

/-- Mirrors class `Expense` of `src/budget_tracker.py`: id, amount,
category, date, description. -/
structure Expense where
  id : String
  amount : Rat
  category : String
  date : Int
  description : String
deriving Repr, DecidableEq

/-- Input to a `Decimal(str(amount))` conversion site: `parsed q` is a
value the conversion accepts with result `q`; `unparseable` is a value
on which `Decimal` raises. -/
inductive AmountInput where
  | parsed (q : Rat)
  | unparseable
deriving Repr, DecidableEq

/-- Result of the `Decimal(str(amount))` conversion. -/
def parseAmount : AmountInput → Option Rat
  | .parsed q => some q
  | .unparseable => none

/-- The `ValueError` exceptions raised by the validation code. -/
inductive TrackerError where
  | validationError (msg : String)
deriving Repr, DecidableEq

/-- Python truthiness test `not category` on an optional string: true
for `None` and for the empty string. -/
def categoryFalsy : Option String → Bool
  | none => true
  | some s => s = ""

namespace BudgetTracker

/-- Mirrors `BudgetTracker.add_expense`: validates the amount, then the
category, then appends a fresh `Expense`. The fresh uuid4 id is passed
in as `newId` (uuid generation is nondeterministic in the source).
Returns (control outcome, ledger after the call); a raise leaves the
ledger as it was, and on success the created record is also returned. -/
def addExpense (ledger : List Expense) (newId : String) (amount : AmountInput)
    (category : Option String) (date : Int) (description : String) :
    Except TrackerError Expense × List Expense :=
  match parseAmount amount with
  | none => (.error (.validationError "Please enter a valid amount"), ledger)
  | some a =>
    if categoryFalsy category then
      (.error (.validationError "Please select a category"), ledger)
    else
      let e : Expense :=
        { id := newId, amount := a, category := category.getD "",
          date := date, description := description }
      (.ok e, ledger ++ [e])

/-- Mirrors the body of the `for expense in self._expenses` loop of
`BudgetTracker.update_expense` once the matching record is found: the
supplied fields are validated and assigned one at a time, in source
order (amount, category, date, description). Returns (control outcome,
record state after the call): on a raise the record keeps every
assignment made before the raise, exactly as the Python object does. -/
def updateOne (e : Expense) (amount : Option AmountInput)
    (category : Option String) (date : Option Int)
    (description : Option String) :
    Except TrackerError Expense × Expense :=
  match amount with
  | some a =>
    match parseAmount a with
    | none => (.error (.validationError "Please enter a valid amount"), e)
    | some q => updateAfterAmount { e with amount := q } category date description
  | none => updateAfterAmount e category date description
where
  /-- Category, date and description steps of the loop body. -/
  updateAfterAmount (e : Expense) (category : Option String)
      (date : Option Int) (description : Option String) :
      Except TrackerError Expense × Expense :=
    match category with
    | some c =>
      if c = "" then (.error (.validationError "Please select a category"), e)
      else
        let e2 := { e with category := c }
        let e3 := { e2 with date := date.getD e2.date }
        let e4 := { e3 with description := description.getD e3.description }
        (.ok e4, e4)
    | none =>
      let e3 := { e with date := date.getD e.date }
      let e4 := { e3 with description := description.getD e3.description }
      (.ok e4, e4)

/-- Mirrors `BudgetTracker.update_expense`: scans for the first record
whose id matches, applies `updateOne` to it in place, and returns the
updated record; returns `none` (Python `None`) when no record matches.
Returns (control outcome, ledger after the call). -/
def updateExpense (ledger : List Expense) (expenseId : String)
    (amount : Option AmountInput) (category : Option String)
    (date : Option Int) (description : Option String) :
    Except TrackerError (Option Expense) × List Expense :=
  match ledger with
  | [] => (.ok none, [])
  | e :: rest =>
    if e.id = expenseId then
      match updateOne e amount category date description with
      | (.ok e4, eAfter) => (.ok (some e4), eAfter :: rest)
      | (.error err, eAfter) => (.error err, eAfter :: rest)
    else
      let r := updateExpense rest expenseId amount category date description
      (r.1, e :: r.2)

/-- Mirrors `BudgetTracker.delete_expense`: removes the first record
whose id matches and returns `true`; returns `false` when none matches.
Returns (return value, ledger after the call). -/
def deleteExpense (ledger : List Expense) (expenseId : String) :
    Bool × List Expense :=
  match ledger with
  | [] => (false, [])
  | e :: rest =>
    if e.id = expenseId then (true, rest)
    else
      let r := deleteExpense rest expenseId
      (r.1, e :: r.2)

/-- Filter condition of `BudgetTracker.get_expenses`: a record is kept
unless its date is before a supplied start date or after a supplied end
date (both `continue` branches negated). -/
def keepExpense (e : Expense) (startDate endDate : Option Int) : Bool :=
  (match startDate with
   | some s => !decide (e.date < s)
   | none => true) &&
  (match endDate with
   | some t => !decide (t < e.date)
   | none => true)

/-- Mirrors `BudgetTracker.get_expenses`: with no bounds returns a copy
of the whole list; otherwise returns the records passing the date
filter, in order. The method never assigns to `self._expenses`, so the
ledger itself is unchanged (the model is a pure function of it). -/
def getExpenses (ledger : List Expense) (startDate endDate : Option Int) :
    List Expense :=
  match startDate, endDate with
  | none, none => ledger
  | _, _ => ledger.filter (fun e => keepExpense e startDate endDate)

/-- Mirrors `BudgetTracker.get_expenses_by_category`: exact string match
on the category, no case folding. -/
def getExpensesByCategory (ledger : List Expense) (category : String) :
    List Expense :=
  ledger.filter (fun e => e.category = category)

/-- Mirrors the dict update `summary[category] = 0; summary[category] +=
amount` of `get_category_summary` on an insertion-ordered association
list: a present key has the amount added in place, an absent key is
appended at the end. -/
def bumpCategory (summary : List (String × Rat)) (c : String) (a : Rat) :
    List (String × Rat) :=
  match summary with
  | [] => [(c, 0 + a)]
  | (k, v) :: rest =>
    if k = c then (k, v + a) :: rest else (k, v) :: bumpCategory rest c a

/-- Mirrors `BudgetTracker.get_category_summary`: folds the (optionally
date-filtered) expense list into a category-to-total dict. -/
def getCategorySummary (ledger : List Expense)
    (startDate endDate : Option Int) : List (String × Rat) :=
  (getExpenses ledger startDate endDate).foldl
    (fun s e => bumpCategory s e.category e.amount) []

/-- Mirrors `BudgetTracker.get_total_expenses`: Python `sum` over the
amounts of the (optionally date-filtered) expense list, starting from
zero. -/
def getTotalExpenses (ledger : List Expense)
    (startDate endDate : Option Int) : Rat :=
  ((getExpenses ledger startDate endDate).map (fun e => e.amount)).sum

end BudgetTracker

/-- Lookup in an insertion-ordered association list; mirrors Python
`dict.get` for string keys. -/
def lookupStr (l : List (String × Rat)) (k : String) : Option Rat :=
  match l with
  | [] => none
  | (k2, v) :: rest => if k2 = k then some v else lookupStr rest k

/-- First record of a list with a given id, the observation used to
reach a record by id in a returned list. -/
def findById (l : List Expense) (i : String) : Option Expense :=
  match l with
  | [] => none
  | e :: rest => if e.id = i then some e else findById rest i

/-- State of `BudgetTrackerV2` in in-memory mode (`db_table_name` not
given, so `_db_table` and `_budget_limits_table` are `None`): the
expense list and the in-memory budget-limits dict. -/
structure TrackerV2 where
  expenses : List Expense
  budgetLimits : List (String × Rat)
deriving Repr, DecidableEq

/-- Status strings produced by `BudgetTrackerV2.check_budget_status`. -/
inductive BudgetStatus where
  | overLimit
  | nearLimit
  | underLimit
deriving Repr, DecidableEq

/-- Return value of `check_budget_status`: the `no_limit` dict, or the
full status dict with spent, limit and percentage. The source converts
the returned percentage to `float`; the model keeps the exact value the
comparisons were made on. -/
inductive BudgetReport where
  | noLimit
  | report (status : BudgetStatus) (spent limit percentage : Rat)
deriving Repr, DecidableEq

/-- Fault raised by Python `Decimal` division when the divisor is zero
(`DivisionByZero`, or `InvalidOperation` for 0/0). -/
inductive DecimalFault where
  | divisionByZero
deriving Repr, DecidableEq

namespace BudgetTrackerV2

/-- Mirrors `BudgetTrackerV2.get_expenses_by_category` in in-memory
mode: `get_expenses()` returns the stored list, then an exact category
match filters it. -/
def getExpensesByCategory (t : TrackerV2) (category : String) :
    List Expense :=
  t.expenses.filter (fun e => e.category = category)

/-- Total spent in a category, as computed by the summation loop of
`check_budget_status` over `get_expenses_by_category`. -/
def totalSpent (t : TrackerV2) (category : String) : Rat :=
  ((getExpensesByCategory t category).map (fun e => e.amount)).sum

/-- Mirrors `BudgetTrackerV2.check_budget_status` in in-memory mode:
looks up the budget limit (`no_limit` when absent), sums the spend of
the category, computes `percentage = (total_spent / limit) * 100` and
classifies with `>= 100` then `>= 80` then the rest. The division is
`Decimal` division, which raises when `limit` is zero; `Rat` division
would silently return 0 there, so the zero divisor is modelled as an
explicit fault. -/
def checkBudgetStatus (t : TrackerV2) (category : String) :
    Except DecimalFault BudgetReport :=
  match lookupStr t.budgetLimits category with
  | none => .ok .noLimit
  | some limit =>
    let spent := totalSpent t category
    if limit = 0 then .error .divisionByZero
    else
      let percentage := spent / limit * 100
      if 100 ≤ percentage then .ok (.report .overLimit spent limit percentage)
      else if 80 ≤ percentage then .ok (.report .nearLimit spent limit percentage)
      else .ok (.report .underLimit spent limit percentage)

end BudgetTrackerV2

/-- Exact sum of the amounts of the records of one category, the
observation the spec calls the "exact decimal sum of its amounts". -/
def categoryTotal (l : List Expense) (c : String) : Rat :=
  ((l.filter (fun e => e.category = c)).map (fun e => e.amount)).sum

theorem categoryTotal_nil (c : String) : categoryTotal [] c = 0 := rfl

theorem categoryTotal_cons (e : Expense) (l : List Expense) (c : String) :
    categoryTotal (e :: l) c =
      if e.category = c then e.amount + categoryTotal l c
      else categoryTotal l c := by
  by_cases h : e.category = c <;> simp [categoryTotal, List.filter_cons, h]

theorem lookupStr_bumpCategory_self (s : List (String × Rat)) (c : String)
    (a : Rat) :
    lookupStr (BudgetTracker.bumpCategory s c a) c
      = some ((lookupStr s c).getD 0 + a) := by
  induction s with
  | nil => simp [BudgetTracker.bumpCategory, lookupStr]
  | cons kv rest ih =>
    obtain ⟨k, v⟩ := kv
    by_cases h : k = c
    · subst h
      simp [BudgetTracker.bumpCategory, lookupStr]
    · simp [BudgetTracker.bumpCategory, lookupStr, h, ih]

theorem lookupStr_bumpCategory_ne (s : List (String × Rat)) (c c2 : String)
    (a : Rat) (h : c2 ≠ c) :
    lookupStr (BudgetTracker.bumpCategory s c a) c2 = lookupStr s c2 := by
  induction s with
  | nil => simp [BudgetTracker.bumpCategory, lookupStr, Ne.symm h]
  | cons kv rest ih =>
    obtain ⟨k, v⟩ := kv
    by_cases hk : k = c
    · subst hk
      simp [BudgetTracker.bumpCategory, lookupStr, Ne.symm h]
    · simp [BudgetTracker.bumpCategory, lookupStr, hk, ih]

theorem lookupStr_foldl_bump (l : List Expense) (acc : List (String × Rat))
    (c : String) :
    lookupStr
        (l.foldl (fun s e => BudgetTracker.bumpCategory s e.category e.amount)
          acc) c
      = if (lookupStr acc c).isSome || l.any (fun e => e.category = c) then
          some ((lookupStr acc c).getD 0 + categoryTotal l c)
        else none := by
  induction l generalizing acc with
  | nil =>
    cases h : lookupStr acc c <;> simp [h, categoryTotal_nil]
  | cons e rest ih =>
    rw [List.foldl_cons, ih, categoryTotal_cons]
    by_cases hc : e.category = c
    · rw [hc, lookupStr_bumpCategory_self]
      cases h : lookupStr acc c <;> (simp [h, hc]; try ring)
    · rw [lookupStr_bumpCategory_ne _ _ _ _ (Ne.symm hc)]
      simp [hc]

theorem deleteExpense_of_forall_ne (l : List Expense) (eid : String)
    (h : ∀ e ∈ l, e.id ≠ eid) :
    BudgetTracker.deleteExpense l eid = (false, l) := by
  induction l with
  | nil => rfl
  | cons e rest ih =>
    have he : e.id ≠ eid := h e (by simp)
    simp only [BudgetTracker.deleteExpense, if_neg he]
    rw [ih (fun x hx => h x (by simp [hx]))]

theorem deleteExpense_first_match (l1 : List Expense) (e : Expense)
    (l2 : List Expense) (eid : String) (he : e.id = eid)
    (h1 : ∀ x ∈ l1, x.id ≠ eid) :
    BudgetTracker.deleteExpense (l1 ++ e :: l2) eid = (true, l1 ++ l2) := by
  induction l1 with
  | nil => simp [BudgetTracker.deleteExpense, he]
  | cons x rest ih =>
    have hx : x.id ≠ eid := h1 x (by simp)
    simp only [List.cons_append, BudgetTracker.deleteExpense, if_neg hx,
      List.append_eq]
    rw [ih (fun y hy => h1 y (by simp [hy]))]

theorem findById_append_fresh (l : List Expense) (r : Expense)
    (h : ∀ e ∈ l, e.id ≠ r.id) :
    findById (l ++ [r]) r.id = some r := by
  induction l with
  | nil => simp [findById]
  | cons e rest ih =>
    have he : e.id ≠ r.id := h e (by simp)
    simp only [List.cons_append, findById, if_neg he]
    exact ih (fun x hx => h x (by simp [hx]))

/-- C1. For every category whose configured budget limit is exactly
zero, `check_budget_status` reaches the division `total_spent / limit`
with a zero divisor and raises a `Decimal` division fault; it does not
return the `over_limit` classification the specification prescribes. -/
theorem C1_zero_limit_division_fault (t : TrackerV2) (c : String)
    (h : lookupStr t.budgetLimits c = some 0) :
    BudgetTrackerV2.checkBudgetStatus t c = .error .divisionByZero := by
  simp [BudgetTrackerV2.checkBudgetStatus, h]

/-- Witness for C1: a tracker with one 10.00 expense in category Food
and a configured Food limit of 0 makes `check_budget_status` fault. -/
theorem C1_zero_limit_division_fault_witness :
    BudgetTrackerV2.checkBudgetStatus
        ⟨[⟨"e1", 10, "Food", 0, ""⟩], [("Food", 0)]⟩ "Food"
      = .error .divisionByZero :=
  C1_zero_limit_division_fault ⟨[⟨"e1", 10, "Food", 0, ""⟩], [("Food", 0)]⟩
    "Food" rfl

/-- C2, counterexample: on a ledger with one record (amount 10,
category Food), `update_expense` supplying the valid amount 50 together
with an empty category raises the category `ValueError`, yet the stored
record now carries amount 50: the failed update is observable, so an
update does not always fully fail before mutating anything. -/
theorem C2_partial_update_counterexample :
    (BudgetTracker.updateExpense [⟨"e1", 10, "Food", 0, "d"⟩] "e1"
        (some (.parsed 50)) (some "") none none).1
      = .error (.validationError "Please select a category") ∧
    (BudgetTracker.updateExpense [⟨"e1", 10, "Food", 0, "d"⟩] "e1"
        (some (.parsed 50)) (some "") none none).2
      = [⟨"e1", 50, "Food", 0, "d"⟩] ∧
    ([⟨"e1", 50, "Food", 0, "d"⟩] : List Expense)
      ≠ [⟨"e1", 10, "Food", 0, "d"⟩] := by
  refine ⟨rfl, rfl, ?_⟩
  intro h
  have := List.head_eq_of_cons_eq h
  have h10 : (50 : Rat) = 10 := congrArg Expense.amount this
  norm_num at h10

/-- C2, amended: an update whose supplied amount is unparseable, or
which supplies an empty category with no amount, fails with a
`ValueError` (when the id is present) and leaves the ledger unchanged;
the atomicity loophole left is exactly the counterexample case of a
valid supplied amount together with an empty category. -/
theorem C2_update_atomicity (ledger : List Expense) (eid : String)
    (amount : Option AmountInput) (category : Option String)
    (date : Option Int) (descr : Option String)
    (h : amount = some .unparseable ∨ (amount = none ∧ category = some "")) :
    (BudgetTracker.updateExpense ledger eid amount category date descr).2
      = ledger ∧
    ((∃ e ∈ ledger, e.id = eid) →
      ∃ m, (BudgetTracker.updateExpense ledger eid amount category date
          descr).1 = .error (.validationError m)) := by
  induction ledger with
  | nil =>
    exact ⟨rfl, by simp⟩
  | cons e rest ih =>
    by_cases he : e.id = eid
    · have hone : ∃ m, BudgetTracker.updateOne e amount category date descr
          = (.error (.validationError m), e) := by
        rcases h with h1 | ⟨h1, h2⟩
        · exact ⟨"Please enter a valid amount",
            by simp [h1, BudgetTracker.updateOne, parseAmount]⟩
        · exact ⟨"Please select a category",
            by simp [h1, h2, BudgetTracker.updateOne,
              BudgetTracker.updateOne.updateAfterAmount]⟩
      obtain ⟨m, hm⟩ := hone
      constructor
      · simp [BudgetTracker.updateExpense, he, hm]
      · intro _
        exact ⟨m, by simp [BudgetTracker.updateExpense, he, hm]⟩
    · obtain ⟨ih1, ih2⟩ := ih
      constructor
      · simp [BudgetTracker.updateExpense, he, ih1]
      · rintro ⟨x, hx, hxid⟩
        rcases List.mem_cons.mp hx with hx1 | hx1
        · exact absurd (hx1 ▸ hxid) he
        · obtain ⟨m, hm⟩ := ih2 ⟨x, hx1, hxid⟩
          exact ⟨m, by simp [BudgetTracker.updateExpense, he, hm]⟩

/-- Witness for C2: an update supplying only an unparseable amount on a
one-record ledger leaves the ledger unchanged and raises. -/
theorem C2_update_atomicity_witness :
    (BudgetTracker.updateExpense [⟨"e1", 10, "Food", 0, "d"⟩] "e1"
        (some .unparseable) none none none).2
      = [⟨"e1", 10, "Food", 0, "d"⟩] ∧
    ∃ m, (BudgetTracker.updateExpense [⟨"e1", 10, "Food", 0, "d"⟩] "e1"
        (some .unparseable) none none none).1
      = .error (.validationError m) := by
  have h := C2_update_atomicity [⟨"e1", 10, "Food", 0, "d"⟩] "e1"
    (some .unparseable) none none none (Or.inl rfl)
  exact ⟨h.1, h.2 ⟨⟨"e1", 10, "Food", 0, "d"⟩, by simp, rfl⟩⟩

/-- C3, counterexample: the category Dining has a limit set (the value
0), yet `check_budget_status` raises a `Decimal` division fault instead
of computing a percentage and classifying; the claim as stated fails on
a set-but-zero limit. -/
theorem C3_zero_limit_counterexample :
    BudgetTrackerV2.checkBudgetStatus
        ⟨[⟨"e2", 5, "Dining", 0, ""⟩], [("Dining", 0)]⟩ "Dining"
      = .error .divisionByZero := rfl

/-- C3, amended: with no limit set the status is `no_limit` and no
division is attempted; the spent value is the exact sum of the amounts
of the records of the category; and with a set nonzero limit the report
carries spent, limit and `percentage = spent / limit * 100`, classified
first-match-wins as `over_limit` when `percentage >= 100`, `near_limit`
when `80 <= percentage < 100`, and `under_limit` when
`percentage < 80`. -/
theorem C3_budget_classification (t : TrackerV2) (c : String) :
    (lookupStr t.budgetLimits c = none →
      BudgetTrackerV2.checkBudgetStatus t c = .ok .noLimit) ∧
    BudgetTrackerV2.totalSpent t c = categoryTotal t.expenses c ∧
    (∀ limit : Rat, lookupStr t.budgetLimits c = some limit → limit ≠ 0 →
      (100 ≤ BudgetTrackerV2.totalSpent t c / limit * 100 →
        BudgetTrackerV2.checkBudgetStatus t c
          = .ok (.report .overLimit (BudgetTrackerV2.totalSpent t c) limit
              (BudgetTrackerV2.totalSpent t c / limit * 100))) ∧
      (80 ≤ BudgetTrackerV2.totalSpent t c / limit * 100 →
        BudgetTrackerV2.totalSpent t c / limit * 100 < 100 →
        BudgetTrackerV2.checkBudgetStatus t c
          = .ok (.report .nearLimit (BudgetTrackerV2.totalSpent t c) limit
              (BudgetTrackerV2.totalSpent t c / limit * 100))) ∧
      (BudgetTrackerV2.totalSpent t c / limit * 100 < 80 →
        BudgetTrackerV2.checkBudgetStatus t c
          = .ok (.report .underLimit (BudgetTrackerV2.totalSpent t c) limit
              (BudgetTrackerV2.totalSpent t c / limit * 100)))) := by
  refine ⟨?_, rfl, ?_⟩
  · intro h
    simp [BudgetTrackerV2.checkBudgetStatus, h]
  · intro limit hl h0
    refine ⟨?_, ?_, ?_⟩
    · intro h100
      simp only [BudgetTrackerV2.checkBudgetStatus, hl]
      rw [if_neg h0, if_pos h100]
    · intro h80 hlt100
      simp only [BudgetTrackerV2.checkBudgetStatus, hl]
      rw [if_neg h0, if_neg (not_le.mpr hlt100), if_pos h80]
    · intro hlt80
      have hlt100 : BudgetTrackerV2.totalSpent t c / limit * 100 < 100 :=
        lt_trans hlt80 (by norm_num)
      simp only [BudgetTrackerV2.checkBudgetStatus, hl]
      rw [if_neg h0, if_neg (not_le.mpr hlt100), if_neg (not_le.mpr hlt80)]

/-- Witness for C3: the three threshold examples of the specification,
spent 80, 160 and 220 against a limit of 200. -/
theorem C3_budget_classification_witness :
    BudgetTrackerV2.checkBudgetStatus
        ⟨[⟨"a", 80, "G", 0, ""⟩], [("G", 200)]⟩ "G"
      = .ok (.report .underLimit 80 200 40) ∧
    BudgetTrackerV2.checkBudgetStatus
        ⟨[⟨"a", 160, "G", 0, ""⟩], [("G", 200)]⟩ "G"
      = .ok (.report .nearLimit 160 200 80) ∧
    BudgetTrackerV2.checkBudgetStatus
        ⟨[⟨"a", 220, "G", 0, ""⟩], [("G", 200)]⟩ "G"
      = .ok (.report .overLimit 220 200 110) := by
  refine ⟨?_, ?_, ?_⟩
  · have hs : BudgetTrackerV2.totalSpent
        ⟨[⟨"a", 80, "G", 0, ""⟩], [("G", 200)]⟩ "G" = 80 := by
      simp [BudgetTrackerV2.totalSpent, BudgetTrackerV2.getExpensesByCategory]
    have h := ((C3_budget_classification
      ⟨[⟨"a", 80, "G", 0, ""⟩], [("G", 200)]⟩ "G").2.2 200 rfl
      (by norm_num)).2.2
    rw [hs] at h
    rw [h (by norm_num)]
    norm_num
  · have hs : BudgetTrackerV2.totalSpent
        ⟨[⟨"a", 160, "G", 0, ""⟩], [("G", 200)]⟩ "G" = 160 := by
      simp [BudgetTrackerV2.totalSpent, BudgetTrackerV2.getExpensesByCategory]
    have h := ((C3_budget_classification
      ⟨[⟨"a", 160, "G", 0, ""⟩], [("G", 200)]⟩ "G").2.2 200 rfl
      (by norm_num)).2.1
    rw [hs] at h
    rw [h (by norm_num) (by norm_num)]
    norm_num
  · have hs : BudgetTrackerV2.totalSpent
        ⟨[⟨"a", 220, "G", 0, ""⟩], [("G", 200)]⟩ "G" = 220 := by
      simp [BudgetTrackerV2.totalSpent, BudgetTrackerV2.getExpensesByCategory]
    have h := ((C3_budget_classification
      ⟨[⟨"a", 220, "G", 0, ""⟩], [("G", 200)]⟩ "G").2.2 200 rfl
      (by norm_num)).1
    rw [hs] at h
    rw [h (by norm_num)]
    norm_num

/-- C4. The category summary maps each category present in the input to
the exact sum of its amounts and omits absent categories; the total is
the exact sum of all amounts, zero on an empty ledger; and the worked
example of the specification evaluates exactly. -/
theorem C4_aggregation_exact (ledger : List Expense) :
    (∀ c, c ∈ ledger.map (fun e => e.category) →
      lookupStr (BudgetTracker.getCategorySummary ledger none none) c
        = some (categoryTotal ledger c)) ∧
    (∀ c, c ∉ ledger.map (fun e => e.category) →
      lookupStr (BudgetTracker.getCategorySummary ledger none none) c
        = none) ∧
    BudgetTracker.getTotalExpenses ledger none none
      = (ledger.map (fun e => e.amount)).sum ∧
    BudgetTracker.getTotalExpenses [] none none = 0 ∧
    BudgetTracker.getCategorySummary
        [⟨"a", 45.99, "Groceries", 2, ""⟩,
         ⟨"b", 12.50, "Transportation", 3, ""⟩,
         ⟨"c", 30.00, "Dining", 4, ""⟩,
         ⟨"d", 25.75, "Groceries", 5, ""⟩] none none
      = [("Groceries", 71.74), ("Transportation", 12.50),
         ("Dining", 30.00)] ∧
    BudgetTracker.getTotalExpenses
        [⟨"a", 45.99, "Groceries", 2, ""⟩,
         ⟨"b", 12.50, "Transportation", 3, ""⟩,
         ⟨"c", 30.00, "Dining", 4, ""⟩,
         ⟨"d", 25.75, "Groceries", 5, ""⟩] none none
      = 114.24 := by
  refine ⟨?_, ?_, rfl, rfl, ?_, ?_⟩
  · intro c hc
    have hany : ledger.any (fun e => e.category = c) = true := by
      simp only [List.any_eq_true, decide_eq_true_eq]
      obtain ⟨e, he, hec⟩ := List.mem_map.mp hc
      exact ⟨e, he, hec⟩
    show lookupStr
        (ledger.foldl (fun s e => BudgetTracker.bumpCategory s e.category
          e.amount) []) c = _
    rw [lookupStr_foldl_bump]
    simp [hany, lookupStr]
  · intro c hc
    have hany : ledger.any (fun e => e.category = c) = false := by
      simp only [List.any_eq_false, decide_eq_true_eq]
      intro e he hec
      exact hc (List.mem_map.mpr ⟨e, he, hec⟩)
    show lookupStr
        (ledger.foldl (fun s e => BudgetTracker.bumpCategory s e.category
          e.amount) []) c = _
    rw [lookupStr_foldl_bump]
    simp [hany, lookupStr]
  · simp [BudgetTracker.getCategorySummary, BudgetTracker.getExpenses,
      BudgetTracker.bumpCategory]
    norm_num
  · simp [BudgetTracker.getTotalExpenses, BudgetTracker.getExpenses]
    norm_num

/-- Witness for C4: the summary of the worked example reaches the exact
Groceries total through the general statement. -/
theorem C4_aggregation_exact_witness :
    lookupStr
        (BudgetTracker.getCategorySummary
          [⟨"a", 45.99, "Groceries", 2, ""⟩, ⟨"d", 25.75, "Groceries", 5, ""⟩]
          none none) "Groceries"
      = some (categoryTotal
          [⟨"a", 45.99, "Groceries", 2, ""⟩, ⟨"d", 25.75, "Groceries", 5, ""⟩]
          "Groceries") :=
  (C4_aggregation_exact _).1 "Groceries" (by simp)

/-- C5. An insert whose amount does not parse as a decimal, or whose
category is empty or absent, raises a `ValueError` and leaves the
ledger exactly as it was: no record is appended. -/
theorem C5_insert_validation (ledger : List Expense) (newId : String)
    (amount : AmountInput) (category : Option String) (date : Int)
    (descr : String)
    (h : parseAmount amount = none ∨ categoryFalsy category = true) :
    (∃ m, (BudgetTracker.addExpense ledger newId amount category date
        descr).1 = .error (.validationError m)) ∧
    (BudgetTracker.addExpense ledger newId amount category date descr).2
      = ledger := by
  rcases h with h | h
  · exact ⟨⟨"Please enter a valid amount",
      by simp [BudgetTracker.addExpense, h]⟩,
      by simp [BudgetTracker.addExpense, h]⟩
  · cases hp : parseAmount amount with
    | none =>
      exact ⟨⟨"Please enter a valid amount",
        by simp [BudgetTracker.addExpense, hp]⟩,
        by simp [BudgetTracker.addExpense, hp]⟩
    | some a =>
      exact ⟨⟨"Please select a category",
        by simp [BudgetTracker.addExpense, hp, h]⟩,
        by simp [BudgetTracker.addExpense, hp, h]⟩

/-- Witness for C5: inserting an unparseable amount into an empty
ledger leaves the ledger empty. -/
theorem C5_insert_validation_witness :
    (BudgetTracker.addExpense [] "id1" .unparseable (some "Groceries")
      0 "").2 = [] :=
  (C5_insert_validation [] "id1" .unparseable (some "Groceries") 0 ""
    (Or.inl rfl)).2

/-- C6. An update whose id matches no stored record returns the Python
`None` not-found signal, raises nothing, and returns the ledger exactly
as it was, whatever fields were supplied. -/
theorem C6_update_not_found (ledger : List Expense) (eid : String)
    (amount : Option AmountInput) (category : Option String)
    (date : Option Int) (descr : Option String)
    (h : ∀ e ∈ ledger, e.id ≠ eid) :
    BudgetTracker.updateExpense ledger eid amount category date descr
      = (.ok none, ledger) := by
  induction ledger with
  | nil => rfl
  | cons e rest ih =>
    have he : e.id ≠ eid := h e (by simp)
    simp only [BudgetTracker.updateExpense, if_neg he]
    rw [ih (fun x hx => h x (by simp [hx]))]

/-- Witness for C6: updating an unknown id on a one-record ledger
returns not-found and the unchanged ledger. -/
theorem C6_update_not_found_witness :
    BudgetTracker.updateExpense [⟨"e1", 10, "Food", 0, "d"⟩] "missing"
        (some (.parsed 99)) (some "Dining") none none
      = (.ok none, [⟨"e1", 10, "Food", 0, "d"⟩]) :=
  C6_update_not_found [⟨"e1", 10, "Food", 0, "d"⟩] "missing"
    (some (.parsed 99)) (some "Dining") none none (by decide)

/-- C7. On a ledger whose record ids are unique and contain the given
id, the first delete returns true, the second returns false and leaves
the list of the first delete unchanged, and the final size is the
initial size minus one. -/
theorem C7_delete_twice (ledger : List Expense) (eid : String)
    (hmem : ∃ e ∈ ledger, e.id = eid)
    (hnodup : (ledger.map (fun e => e.id)).Nodup) :
    (BudgetTracker.deleteExpense ledger eid).1 = true ∧
    BudgetTracker.deleteExpense
        (BudgetTracker.deleteExpense ledger eid).2 eid
      = (false, (BudgetTracker.deleteExpense ledger eid).2) ∧
    (BudgetTracker.deleteExpense
        (BudgetTracker.deleteExpense ledger eid).2 eid).2.length
      = ledger.length - 1 := by
  induction ledger with
  | nil =>
    obtain ⟨e, he, _⟩ := hmem
    exact absurd he (List.not_mem_nil e)
  | cons e rest ih =>
    by_cases he : e.id = eid
    · have hrest : ∀ x ∈ rest, x.id ≠ eid := by
        intro x hx hxid
        exact (List.nodup_cons.mp hnodup).1
          (List.mem_map.mpr ⟨x, hx, hxid.trans he.symm⟩)
      have h1 : BudgetTracker.deleteExpense (e :: rest) eid = (true, rest) := by
        simp [BudgetTracker.deleteExpense, he]
      rw [h1, deleteExpense_of_forall_ne rest eid hrest]
      simp
    · obtain ⟨x, hx, hxid⟩ := hmem
      have hxr : x ∈ rest := by
        rcases List.mem_cons.mp hx with h1 | h1
        · exact absurd (h1 ▸ hxid) he
        · exact h1
      obtain ⟨ih1, ih2, ih3⟩ := ih ⟨x, hxr, hxid⟩
        (List.nodup_cons.mp hnodup).2
      have h1 : BudgetTracker.deleteExpense (e :: rest) eid
          = (true, e :: (BudgetTracker.deleteExpense rest eid).2) := by
        simp only [BudgetTracker.deleteExpense, if_neg he]
        rw [Prod.ext_iff]
        exact ⟨ih1, rfl⟩
      have h2 : BudgetTracker.deleteExpense
          (e :: (BudgetTracker.deleteExpense rest eid).2) eid
          = (false, e :: (BudgetTracker.deleteExpense
              (BudgetTracker.deleteExpense rest eid).2 eid).2) := by
        simp only [BudgetTracker.deleteExpense, if_neg he]
        rw [Prod.ext_iff]
        refine ⟨?_, rfl⟩
        rw [ih2]
      rw [h1]
      refine ⟨rfl, ?_, ?_⟩
      · rw [h2, ih2]
      · rw [h2]
        have hlen : rest.length ≥ 1 := by
          cases rest with
          | nil => exact absurd hxr (List.not_mem_nil x)
          | cons y ys => simp
        change (e :: (BudgetTracker.deleteExpense
          (BudgetTracker.deleteExpense rest eid).2 eid).2).length
            = (e :: rest).length - 1
        simp only [List.length_cons]
        omega

/-- Witness for C7: a two-record ledger with distinct ids, deleting the
first id twice. -/
theorem C7_delete_twice_witness :
    (BudgetTracker.deleteExpense
      [⟨"a", 1, "c", 0, ""⟩, ⟨"b", 2, "c", 0, ""⟩] "a").1 = true ∧
    BudgetTracker.deleteExpense
        (BudgetTracker.deleteExpense
          [⟨"a", 1, "c", 0, ""⟩, ⟨"b", 2, "c", 0, ""⟩] "a").2 "a"
      = (false, (BudgetTracker.deleteExpense
          [⟨"a", 1, "c", 0, ""⟩, ⟨"b", 2, "c", 0, ""⟩] "a").2) ∧
    (BudgetTracker.deleteExpense
        (BudgetTracker.deleteExpense
          [⟨"a", 1, "c", 0, ""⟩, ⟨"b", 2, "c", 0, ""⟩] "a").2 "a").2.length
      = ([⟨"a", 1, "c", 0, ""⟩, ⟨"b", 2, "c", 0, ""⟩] : List Expense).length
          - 1 :=
  C7_delete_twice [⟨"a", 1, "c", 0, ""⟩, ⟨"b", 2, "c", 0, ""⟩] "a"
    ⟨⟨"a", 1, "c", 0, ""⟩, by simp, rfl⟩ (by simp)

/-- C8. With no bounds `get_expenses` returns every record in insertion
order; with bounds a record is returned exactly when it is stored and
its date is at least any supplied start date and at most any supplied
end date (both ends inclusive, either bound independent); and the
returned list is a sublist of the store, which the call never mutates
or reorders. -/
theorem C8_list_date_range (ledger : List Expense) (sd ed : Option Int) :
    BudgetTracker.getExpenses ledger none none = ledger ∧
    (∀ e, e ∈ BudgetTracker.getExpenses ledger sd ed ↔
      e ∈ ledger ∧ (∀ s, sd = some s → s ≤ e.date) ∧
        (∀ t, ed = some t → e.date ≤ t)) ∧
    (BudgetTracker.getExpenses ledger sd ed).Sublist ledger := by
  refine ⟨rfl, ?_, ?_⟩
  · intro e
    match sd, ed with
    | none, none =>
      simp [BudgetTracker.getExpenses]
    | none, some t =>
      simp [BudgetTracker.getExpenses, BudgetTracker.keepExpense,
        List.mem_filter, not_lt]
    | some s, none =>
      simp [BudgetTracker.getExpenses, BudgetTracker.keepExpense,
        List.mem_filter, not_lt]
    | some s, some t =>
      simp [BudgetTracker.getExpenses, BudgetTracker.keepExpense,
        List.mem_filter, not_lt, and_assoc]
  · match sd, ed with
    | none, none => exact List.Sublist.refl ledger
    | none, some t => exact List.filter_sublist ledger
    | some s, none => exact List.filter_sublist ledger
    | some s, some t => exact List.filter_sublist ledger

/-- Witness for C8: a record dated exactly on the start bound and a
record dated exactly on the end bound are both returned. -/
theorem C8_list_date_range_witness :
    (⟨"a", 1, "c", 5, ""⟩ : Expense) ∈ BudgetTracker.getExpenses
      [⟨"a", 1, "c", 5, ""⟩, ⟨"b", 1, "c", 9, ""⟩, ⟨"x", 1, "c", 12, ""⟩]
      (some 5) (some 9) ∧
    (⟨"b", 1, "c", 9, ""⟩ : Expense) ∈ BudgetTracker.getExpenses
      [⟨"a", 1, "c", 5, ""⟩, ⟨"b", 1, "c", 9, ""⟩, ⟨"x", 1, "c", 12, ""⟩]
      (some 5) (some 9) :=
  ⟨((C8_list_date_range _ (some 5) (some 9)).2.1 _).mpr
      ⟨by simp, by simp, by simp⟩,
    ((C8_list_date_range _ (some 5) (some 9)).2.1 _).mpr
      ⟨by simp, by simp, by simp⟩⟩

/-- C9. A valid insert returns the record built from exactly the passed
values, the ledger becomes the old ledger with that record appended,
the record is reachable by its fresh id in the unfiltered listing, and
the listing by its exact category contains it with all fields equal. -/
theorem C9_insert_round_trip (ledger : List Expense) (newId : String)
    (amt : Rat) (cat : String) (date : Int) (descr : String)
    (hfresh : ∀ e ∈ ledger, e.id ≠ newId) (hcat : cat ≠ "") :
    ∃ rec : Expense,
      BudgetTracker.addExpense ledger newId (.parsed amt) (some cat) date
          descr
        = (.ok rec, ledger ++ [rec]) ∧
      rec = ⟨newId, amt, cat, date, descr⟩ ∧
      findById (BudgetTracker.getExpenses (ledger ++ [rec]) none none) newId
        = some rec ∧
      rec ∈ BudgetTracker.getExpensesByCategory (ledger ++ [rec]) cat := by
  refine ⟨⟨newId, amt, cat, date, descr⟩, ?_, rfl, ?_, ?_⟩
  · simp [BudgetTracker.addExpense, parseAmount, categoryFalsy, hcat]
  · show findById (ledger ++ [⟨newId, amt, cat, date, descr⟩]) newId = _
    exact findById_append_fresh ledger ⟨newId, amt, cat, date, descr⟩ hfresh
  · simp [BudgetTracker.getExpensesByCategory]

/-- Witness for C9: inserting amount 45.99, category Groceries into a
one-record ledger with a distinct id. -/
theorem C9_insert_round_trip_witness :
    ∃ rec : Expense,
      BudgetTracker.addExpense [⟨"old", 1, "Dining", 0, ""⟩] "new"
          (.parsed 45.99) (some "Groceries") 7 "weekly"
        = (.ok rec, [⟨"old", 1, "Dining", 0, ""⟩] ++ [rec]) ∧
      rec = ⟨"new", 45.99, "Groceries", 7, "weekly"⟩ ∧
      findById (BudgetTracker.getExpenses
          ([⟨"old", 1, "Dining", 0, ""⟩] ++ [rec]) none none) "new"
        = some rec ∧
      rec ∈ BudgetTracker.getExpensesByCategory
          ([⟨"old", 1, "Dining", 0, ""⟩] ++ [rec]) "Groceries" :=
  C9_insert_round_trip [⟨"old", 1, "Dining", 0, ""⟩] "new" 45.99
    "Groceries" 7 "weekly" (by decide) (by decide)

/-- C10. Frame property: a delete on a ledger with no matching id
returns false and the unchanged ledger; a delete on a ledger split as
l1, the first matching record e, and l2 returns true and exactly
l1 ++ l2, every other record and the remaining order untouched; and any
successful insert returns the old ledger with the new record appended
at the end. -/
theorem C10_frame (ledger : List Expense) (eid : String) :
    ((∀ e ∈ ledger, e.id ≠ eid) →
      BudgetTracker.deleteExpense ledger eid = (false, ledger)) ∧
    (∀ l1 (e : Expense) l2, ledger = l1 ++ e :: l2 → e.id = eid →
      (∀ x ∈ l1, x.id ≠ eid) →
      BudgetTracker.deleteExpense ledger eid = (true, l1 ++ l2)) ∧
    (∀ newId amount category date descr rec,
      (BudgetTracker.addExpense ledger newId amount category date descr).1
        = .ok rec →
      (BudgetTracker.addExpense ledger newId amount category date descr).2
        = ledger ++ [rec]) := by
  refine ⟨deleteExpense_of_forall_ne ledger eid, ?_, ?_⟩
  · intro l1 e l2 hsplit he h1
    subst hsplit
    exact deleteExpense_first_match l1 e l2 eid he h1
  · intro newId amount category date descr rec hok
    cases hp : parseAmount amount with
    | none => simp [BudgetTracker.addExpense, hp] at hok
    | some a =>
      by_cases hcf : categoryFalsy category
      · simp [BudgetTracker.addExpense, hp, hcf] at hok
      · simp only [BudgetTracker.addExpense, hp, hcf,
          Bool.false_eq_true, if_false] at hok ⊢
        rw [Except.ok.injEq] at hok
        rw [← hok]

/-- Witness for C10: deleting the middle record of a three-record
ledger removes exactly it and keeps the order of the rest. -/
theorem C10_frame_witness :
    BudgetTracker.deleteExpense
        [⟨"a", 1, "c", 0, ""⟩, ⟨"b", 2, "c", 0, ""⟩, ⟨"d", 3, "c", 0, ""⟩]
        "b"
      = (true, [⟨"a", 1, "c", 0, ""⟩] ++ [⟨"d", 3, "c", 0, ""⟩]) :=
  (C10_frame _ "b").2.1 [⟨"a", 1, "c", 0, ""⟩] ⟨"b", 2, "c", 0, ""⟩
    [⟨"d", 3, "c", 0, ""⟩] rfl rfl (by decide)
